import Mathlib

/-!
Shallow embedding of the go-dht sensor driver (src/dht.go).

Modelling conventions:
* `time.Duration` (int64 nanoseconds) is embedded as `Int` (nanoseconds);
  Go's truncating `int64` division is `Int.tdiv`.
* Go `byte` values are embedded as `Nat` with wraparound written explicitly
  as `% 256` where the source performs `byte` arithmetic.
* `float32` temperature/humidity arithmetic is idealized as exact rational
  (`Rat`) arithmetic: every quantity appearing in the decoder is a small
  integer scaled by 1/10, far inside the range where `float32` conversions
  from integers are exact, and the comparisons performed (`> 100`) agree
  with the `float32` computation on all reachable values.
* Fallible Go functions returning `(value, error)` become `Except DhtError v`;
  the distinct `fmt.Errorf` sites of the source are mapped to distinct
  constructors of `DhtError`.
* A Go runtime panic (index out of range) is a distinguished result
  (`SiftOut.panic`), not an error value.
* The hardware-facing `ReadDHTxx` used by `ReadDHTxxWithRetry` is abstracted
  as an oracle `attempt : Nat → Except e a` giving the outcome of the
  (n+1)-st call, which determinizes the stateful hardware world.
-/

/-- `type SensorType int` of the source: the Go type is an `int`. -/
abbrev SensorType := Int

/-- `DHT11 SensorType = iota + 1`. -/
def DHT11 : SensorType := 1

/-- `DHT22` (next iota value). -/
def DHT22 : SensorType := 2

/-- `AM2302 = DHT22` — an alias, not a third variant. -/
def AM2302 : SensorType := DHT22

/-- `type Pulse struct { Value byte; Duration time.Duration }`.
Duration is in nanoseconds, as Go's `time.Duration`. -/
structure Pulse where
  value : Nat
  duration : Int
  deriving DecidableEq, Repr

/-- Default pulse used by `List.getD`; every access of the source that we
model with `getD` is guarded so the default is never observed. -/
def dPulse : Pulse := ⟨0, 0⟩

/-- `type StampedValue struct { Value int; Time time.Duration }`. -/
structure StampedValue where
  value : Int
  time : Int
  deriving DecidableEq, Repr

/-- The distinct error sites of `decodeByte` / `decodeDHT11Pulses`
(`fmt.Errorf` calls), mapped to named kinds. -/
inductive DhtError where
  /-- "Can't decode byte, since range between index and array length is less than 16" -/
  | rangeErr
  /-- "Low edge value expected at index %d" -/
  | lowEdgeErr
  /-- "High edge value expected at index %d" -/
  | highEdgeErr
  /-- "High edge value duration %v exceed expected maximum amount %v" -/
  | durMaxErr
  /-- "Can't decode pulse array received from DHTxx sensor, since incorrect length" -/
  | frameLengthErr
  /-- "Control sum %d doesn't match %d" -/
  | checksumErr
  /-- "Humidity value exceed 100%" -/
  | humidityErr
  deriving DecidableEq, Repr

instance {e v : Type} [DecidableEq e] [DecidableEq v] : DecidableEq (Except e v) :=
  fun a b =>
    match a, b with
    | .ok x, .ok y =>
      if h : x = y then .isTrue (by rw [h]) else .isFalse (by intro hc; cases hc; exact h rfl)
    | .error x, .error y =>
      if h : x = y then .isTrue (by rw [h]) else .isFalse (by intro hc; cases hc; exact h rfl)
    | .ok _, .error _ => .isFalse (by intro hc; cases hc)
    | .error _, .ok _ => .isFalse (by intro hc; cases hc)

/-- `HIGH_DUR_MAX = (70 + (70 + 54)) / 2 * time.Microsecond` (= 97 µs), in ns. -/
def HIGH_DUR_MAX : Int := (70 + (70 + 54)) / 2 * 1000

/-- `HIGH_DUR_AVG = (24 + (70-24)/2) * time.Microsecond` (= 47 µs), in ns. -/
def HIGH_DUR_AVG : Int := (24 + (70 - 24) / 2) * 1000

/-- The `for i := 0; i < 8; i++` loop body of `decodeByte`.
`n` is the number of remaining iterations, `i` the Go loop counter
(invariant `i + n = 8` at the top-level call), `b` the accumulator. -/
def decodeByteLoop (ps : List Pulse) (start : Nat) : Nat → Nat → Nat → Except DhtError Nat
  | 0, _, b => .ok b
  | n + 1, i, b =>
    let pulseL := ps.getD (start + i * 2) dPulse
    let pulseH := ps.getD (start + i * 2 + 1) dPulse
    if pulseL.value ≠ 0 then .error .lowEdgeErr
    else if pulseH.value = 0 then .error .highEdgeErr
    else if pulseH.duration > HIGH_DUR_MAX then .error .durMaxErr
    else
      decodeByteLoop ps start n (i + 1)
        (if pulseH.duration > HIGH_DUR_AVG then b ||| (1 <<< (7 - i)) else b)

/-- `func decodeByte(pulses []Pulse, start int) (byte, error)`.
The guard `len(pulses)-start < 16` is Go `int` subtraction; for
`start ≤ len` it coincides with the `Nat` truncated subtraction used here,
and for `start > len` both sides take the error branch. -/
def decodeByte (pulses : List Pulse) (start : Nat) : Except DhtError Nat :=
  if pulses.length - start < 16 then .error .rangeErr
  else decodeByteLoop pulses start 8 0 0

/-- Lines 157–167 of the source: `temperature, humidity = 0.0, 0.0` followed
by the per-sensor conversion branches. Result is `(temperature, humidity)`. -/
def convertReading (sensorType : SensorType) (b0 b1 b2 b3 : Nat) : Rat × Rat :=
  if sensorType = DHT11 then ((b2 : Rat), (b0 : Rat))
  else if sensorType = DHT22 then
    let humidity : Rat := ((b0 : Rat) * 256 + (b1 : Rat)) / 10
    let magnitude : Rat := (((b2 &&& 127 : Nat) : Rat) * 256 + (b3 : Rat)) / 10
    (if b2 &&& 128 ≠ 0 then -magnitude else magnitude, humidity)
  else (0, 0)

/-- Lines 122–172 of the source: the part of `decodeDHT11Pulses` after the
preamble trim, applied to `pulses[:80]`: five `decodeByte` calls, the
checksum comparison `sum != byte(b0+b1+b2+b3)` (byte arithmetic = mod 256),
conversion, and the `humidity > 100.0` sanity check. -/
def decodeFrame80 (sensorType : SensorType) (ps : List Pulse) : Except DhtError (Rat × Rat) :=
  match decodeByte ps 0 with
  | .error e => .error e
  | .ok b0 =>
  match decodeByte ps 16 with
  | .error e => .error e
  | .ok b1 =>
  match decodeByte ps 32 with
  | .error e => .error e
  | .ok b2 =>
  match decodeByte ps 48 with
  | .error e => .error e
  | .ok b3 =>
  match decodeByte ps 64 with
  | .error e => .error e
  | .ok sum =>
  if sum ≠ (b0 + b1 + b2 + b3) % 256 then .error .checksumErr
  else
    let th := convertReading sensorType b0 b1 b2 b3
    if th.2 > 100 then .error .humidityErr
    else .ok th

/-- `func decodeDHT11Pulses(sensorType SensorType, pulses []Pulse)`:
the preamble-trim `if` chain (lines 111–121) followed by `pulses[:80]` and
the rest of the decode (`decodeFrame80`). -/
def decodeDHT11Pulses (sensorType : SensorType) (pulses : List Pulse) :
    Except DhtError (Rat × Rat) :=
  if pulses.length = 85 then decodeFrame80 sensorType ((pulses.drop 3).take 80)
  else if pulses.length = 84 then decodeFrame80 sensorType ((pulses.drop 2).take 80)
  else if pulses.length = 83 then decodeFrame80 sensorType ((pulses.drop 1).take 80)
  else if pulses.length ≠ 82 then .error .frameLengthErr
  else decodeFrame80 sensorType (pulses.take 80)

/-- The `for { ... }` loop of `func ReadDHTxxWithRetry` with the hardware
read `ReadDHTxx` abstracted as the oracle `attempt` (indexed by call
number).  Arguments: call index, remaining `retry` budget, `retried`
counter.  On an error with `retry > 0` the Go code decrements `retry`,
increments `retried`, sleeps and continues; with `retry == 0` it returns
the current error and `retried`. -/
def ReadDHTxxWithRetryAux {e v : Type} (attempt : Nat → Except e v) :
    Nat → Nat → Nat → Except e v × Nat
  | idx, 0, retried =>
    match attempt idx with
    | .ok val => (.ok val, retried)
    | .error err => (.error err, retried)
  | idx, retry + 1, retried =>
    match attempt idx with
    | .ok val => (.ok val, retried)
    | .error _ => ReadDHTxxWithRetryAux attempt (idx + 1) retry (retried + 1)

/-- `func ReadDHTxxWithRetry(sensorType, pin, boostPerfFlag, retry)` with the
single-attempt hardware read abstracted as `attempt`; returns the final
`(reading-or-error, retried)` pair. -/
def ReadDHTxxWithRetry {e v : Type} (attempt : Nat → Except e v) (retry : Nat) :
    Except e v × Nat :=
  ReadDHTxxWithRetryAux attempt 0 retry 0

/-- Outcome of `func sift`: a normal return, the "Pulse count exceed limit"
error, or a Go runtime panic from an out-of-range slice index. -/
inductive SiftOut where
  | ok (arr : List Int)
  | errPulseLimit
  | panic
  deriving DecidableEq, Repr

/-- `maxPulseCount := 32000` of `sift`. -/
def maxPulseCount : Nat := 32000

/-- The `for { ... }` loop of `func sift` (lines 424–459).
State: `values` (the `make([]int64, maxPulseCount*2)` buffer as a total map,
zero-initialised, all writes in range because of the `k` bound check),
scan index `j`, pulse index `k`, same-level run counter `i`, current level
`lastV`, last transition time `lastT`.  Each iteration increments `j` and
reads `input[j]`; `fuel` starts at `input.length`, which is exact: the
`j`-read goes out of range (panics) before `fuel` can reach 0, so the
`fuel = 0` branch is unreachable.  The timeout probe reads `input[i]`
exactly as the source does (`nextT = input[i].Time` — note `i`, not `j`).
Divisions are Go truncating `int64` divisions (`Int.tdiv`). -/
def siftLoop (input : List StampedValue) (timeoutMsec : Int) :
    Nat → (Nat → Int) → Nat → Nat → Nat → Int → Int → SiftOut
  | 0, _, _, _, _, _, _ => .panic
  | fuel + 1, values, j, k, i, lastV, lastT =>
    if hj : j + 1 < input.length then
      let nextV := (input.get ⟨j + 1, hj⟩).value
      if lastV ≠ nextV then
        let nextT := (input.get ⟨j + 1, hj⟩).time
        let k' := k + 1
        if k' > maxPulseCount - 1 then .errPulseLimit
        else
          let values' : Nat → Int := fun idx =>
            if idx = k' * 2 then nextV
            else if idx = k' * 2 - 1 then Int.tdiv nextT 1000 - Int.tdiv lastT 1000
            else values idx
          let i' := 0 + 1
          if i' - 1 > 20 then
            if hi : i' < input.length then
              let probeT := (input.get ⟨i', hi⟩).time
              if Int.tdiv (Int.tdiv probeT 1000 - Int.tdiv nextT 1000) 1000 > timeoutMsec then
                .ok ((List.range (k' + 1)).flatMap fun idx =>
                  [(fun m => if m = k' * 2 + 1 then timeoutMsec * 1000 else values' m) (idx * 2),
                   (fun m => if m = k' * 2 + 1 then timeoutMsec * 1000 else values' m) (idx * 2 + 1)])
              else siftLoop input timeoutMsec fuel values' (j + 1) k' i' nextV nextT
            else .panic
          else siftLoop input timeoutMsec fuel values' (j + 1) k' i' nextV nextT
      else
        let i' := i + 1
        if i' - 1 > 20 then
          if hi : i' < input.length then
            let probeT := (input.get ⟨i', hi⟩).time
            if Int.tdiv (Int.tdiv probeT 1000 - Int.tdiv lastT 1000) 1000 > timeoutMsec then
              .ok ((List.range (k + 1)).flatMap fun idx =>
                [(fun m => if m = k * 2 + 1 then timeoutMsec * 1000 else values m) (idx * 2),
                 (fun m => if m = k * 2 + 1 then timeoutMsec * 1000 else values m) (idx * 2 + 1)])
            else siftLoop input timeoutMsec fuel values (j + 1) k i' lastV lastT
          else .panic
        else siftLoop input timeoutMsec fuel values (j + 1) k i' lastV lastT
    else .panic

/-- `func sift(input []StampedValue, timeoutMsec int) ([]int, error)`.
The initial reads `input[0].Value` / `input[0].Time` panic on an empty
slice, which the model makes explicit. -/
def sift (input : List StampedValue) (timeoutMsec : Int) : SiftOut :=
  if h0 : 0 < input.length then
    let lastV := (input.get ⟨0, h0⟩).value
    let lastT := (input.get ⟨0, h0⟩).time
    siftLoop input timeoutMsec input.length
      (fun idx => if idx = 0 then lastV else 0) 0 0 0 lastV lastT
  else .panic

/-- Frame constructor for the spec's round-trip properties: one bit-pair,
a low pulse followed by a high pulse whose duration is the nominal 70 µs
for bit 1 and 24 µs for bit 0 (both within the decoder's bounds). -/
def encodeBit (bit : Bool) : List Pulse :=
  [⟨0, 50000⟩, ⟨1, if bit then 70000 else 24000⟩]

/-- Frame constructor: one byte as 16 pulses, MSB first. -/
def encodeByte (b : Nat) : List Pulse :=
  encodeBit (b.testBit 7) ++ encodeBit (b.testBit 6) ++ encodeBit (b.testBit 5) ++
  encodeBit (b.testBit 4) ++ encodeBit (b.testBit 3) ++ encodeBit (b.testBit 2) ++
  encodeBit (b.testBit 1) ++ encodeBit (b.testBit 0)

/-- The two pulses that follow the 80 payload pulses in a length-82 frame
(the decoder discards them via `pulses[:80]`). -/
def framePad : List Pulse := [⟨0, 50000⟩, ⟨1, 10000000⟩]

/-- The 80 payload pulses of a frame carrying bytes `b0 b1 b2 b3` and
checksum byte `c`. -/
def framePayload (b0 b1 b2 b3 c : Nat) : List Pulse :=
  encodeByte b0 ++ encodeByte b1 ++ encodeByte b2 ++ encodeByte b3 ++ encodeByte c

/-- Frame constructor: an 82-pulse frame carrying bytes `b0 b1 b2 b3` and
checksum byte `c`. -/
def encodeFrame (b0 b1 b2 b3 c : Nat) : List Pulse :=
  framePayload b0 b1 b2 b3 c ++ framePad

/-- 16 pulses whose first high pulse lasts exactly 48 µs and whose remaining
seven high pulses last exactly 47 µs (the `HIGH_DUR_AVG` threshold). -/
def boundaryPulses : List Pulse :=
  [⟨0, 50000⟩, ⟨1, 48000⟩] ++
  [⟨0, 50000⟩, ⟨1, 47000⟩] ++ [⟨0, 50000⟩, ⟨1, 47000⟩] ++ [⟨0, 50000⟩, ⟨1, 47000⟩] ++
  [⟨0, 50000⟩, ⟨1, 47000⟩] ++ [⟨0, 50000⟩, ⟨1, 47000⟩] ++ [⟨0, 50000⟩, ⟨1, 47000⟩] ++
  [⟨0, 50000⟩, ⟨1, 47000⟩]

/-- A sample stream on which `sift`'s idle-timeout probe misbehaves:
30 low samples spaced 1 µs apart, a transition to high at t = 30 µs, then
29 high samples spaced a full second apart.  After the transition the true
elapsed time since the last transition quickly exceeds any sensible timeout,
but the probe reads `input[i]` with `i` the same-level run counter, i.e. a
pre-transition sample, and computes a negative elapsed time. -/
def c5Input : List StampedValue :=
  (List.range 60).map fun idx =>
    if idx < 30 then ⟨0, (idx : Int) * 1000⟩
    else ⟨1, 30000 + ((idx : Int) - 30) * 1000000000⟩

/-- A constant-level stream: 30 low samples spaced 1 µs apart, so the
idle-timeout (10 ms) is never exceeded before the input is exhausted. -/
def c9Const : List StampedValue :=
  (List.range 30).map fun idx => ⟨0, (idx : Int) * 1000⟩

/-- Like `c5Input` but shorter and with the transition at sample 25:
25 low samples 1 µs apart, then high samples a second apart.  Exhausted
before any correctly-computed idle timeout could be detected. -/
def c9Trans : List StampedValue :=
  (List.range 50).map fun idx =>
    if idx < 25 then ⟨0, (idx : Int) * 1000⟩
    else ⟨1, 25000 + ((idx : Int) - 25) * 1000000000⟩

/-- The attempt oracle of the spec's retry-accounting test: fails on the
first two calls (with distinguishable errors), succeeds from the third on. -/
def c2Attempt : Nat → Except Nat Nat :=
  fun j => if j < 2 then .error j else .ok 42

/-- Three junk preamble pulses used to build a length-85 frame. -/
def junk3 : List Pulse := [⟨1, 1000⟩, ⟨0, 2000⟩, ⟨1, 3000⟩]

/-!  ### Properties of `decodeByte`  -/

theorem encodeByte_length (b : Nat) : (encodeByte b).length = 16 := rfl

/-- The byte-decoding loop only inspects the 16 pulses starting at the
start index: it is invariant under changing anything outside that window. -/
theorem decodeByteLoop_congr (ps qs : List Pulse) (s1 s2 : Nat)
    (hw : ∀ t, t < 16 → ps.getD (s1 + t) dPulse = qs.getD (s2 + t) dPulse) :
    ∀ n i b, i + n ≤ 8 → decodeByteLoop ps s1 n i b = decodeByteLoop qs s2 n i b := by
  intro n
  induction n with
  | zero => intro i b _; rfl
  | succ n ih =>
    intro i b hle
    have h1 : ps.getD (s1 + i * 2) dPulse = qs.getD (s2 + i * 2) dPulse := hw (i * 2) (by omega)
    have h2 : ps.getD (s1 + i * 2 + 1) dPulse = qs.getD (s2 + i * 2 + 1) dPulse := by
      have h := hw (i * 2 + 1) (by omega)
      rwa [← Nat.add_assoc, ← Nat.add_assoc] at h
    simp only [decodeByteLoop, h1, h2]
    split_ifs <;> first | rfl | exact ih (i + 1) _ (by omega)

/-- Bit semantics of the byte-decoding loop on success: positions `7 - t`
for the remaining iterations `t` reflect the threshold comparison, other
positions are untouched. -/
theorem decodeByteLoop_ok_bits (ps : List Pulse) (s : Nat) :
    ∀ n i b r, i + n = 8 → decodeByteLoop ps s n i b = .ok r →
      (∀ m, (∀ t, i ≤ t → t < 8 → m ≠ 7 - t) → r.testBit m = b.testBit m)
      ∧ ((∀ t, i ≤ t → t < 8 → b.testBit (7 - t) = false) →
         ∀ t, i ≤ t → t < 8 →
           (r.testBit (7 - t) = true ↔
             HIGH_DUR_AVG < (ps.getD (s + t * 2 + 1) dPulse).duration)) := by
  intro n
  induction n with
  | zero =>
    intro i b r hi h
    simp only [decodeByteLoop] at h
    cases h
    constructor
    · intro m _; rfl
    · intro _ t ht1 ht2; omega
  | succ n ih =>
    intro i b r hi h
    simp only [decodeByteLoop] at h
    by_cases hL : (ps.getD (s + i * 2) dPulse).value ≠ 0
    · rw [if_pos hL] at h; cases h
    rw [if_neg hL] at h
    by_cases hH : (ps.getD (s + i * 2 + 1) dPulse).value = 0
    · rw [if_pos hH] at h; cases h
    rw [if_neg hH] at h
    by_cases hM : (ps.getD (s + i * 2 + 1) dPulse).duration > HIGH_DUR_MAX
    · rw [if_pos hM] at h; cases h
    rw [if_neg hM] at h
    obtain ⟨P1, P2⟩ := ih (i + 1)
      (if (ps.getD (s + i * 2 + 1) dPulse).duration > HIGH_DUR_AVG
        then b ||| 1 <<< (7 - i) else b) r (by omega) h
    constructor
    · intro m hm
      have hm' : ∀ t, i + 1 ≤ t → t < 8 → m ≠ 7 - t := fun t h1 h2 => hm t (by omega) h2
      have h7i : m ≠ 7 - i := hm i (le_refl i) (by omega)
      rw [P1 m hm']
      by_cases hA : (ps.getD (s + i * 2 + 1) dPulse).duration > HIGH_DUR_AVG
      · rw [if_pos hA, Nat.testBit_lor, Nat.shiftLeft_eq, one_mul,
          Nat.testBit_two_pow_of_ne (fun hc => h7i hc.symm), Bool.or_false]
      · rw [if_neg hA]
    · intro hb t ht1 ht2
      have hbacc : ∀ u, i + 1 ≤ u → u < 8 →
          (if (ps.getD (s + i * 2 + 1) dPulse).duration > HIGH_DUR_AVG
            then b ||| 1 <<< (7 - i) else b).testBit (7 - u) = false := by
        intro u hu1 hu2
        by_cases hA : (ps.getD (s + i * 2 + 1) dPulse).duration > HIGH_DUR_AVG
        · rw [if_pos hA, Nat.testBit_lor, Nat.shiftLeft_eq, one_mul,
            Nat.testBit_two_pow_of_ne (by omega : 7 - i ≠ 7 - u), hb u (by omega) hu2,
            Bool.or_false]
        · rw [if_neg hA]; exact hb u (by omega) hu2
      rcases eq_or_lt_of_le ht1 with heq | hlt
      · subst heq
        have hm' : ∀ u, i + 1 ≤ u → u < 8 → 7 - i ≠ 7 - u := by intro u h1 h2; omega
        rw [P1 (7 - i) hm']
        by_cases hA : (ps.getD (s + i * 2 + 1) dPulse).duration > HIGH_DUR_AVG
        · rw [if_pos hA, Nat.testBit_lor, Nat.shiftLeft_eq, one_mul, Nat.testBit_two_pow_self]
          exact iff_of_true (by simp) hA
        · rw [if_neg hA, hb i (le_refl i) (by omega)]
          exact ⟨fun hc => Bool.noConfusion hc, fun hc => absurd hc hA⟩
      · exact P2 hbacc t (by omega) ht2

/-- Failure semantics of the byte-decoding loop: it errors exactly when some
remaining bit-pair violates polarity or the duration maximum. -/
theorem decodeByteLoop_error_iff (ps : List Pulse) (s : Nat) :
    ∀ n i b, i + n = 8 →
      ((∃ e, decodeByteLoop ps s n i b = .error e) ↔
        ∃ t, i ≤ t ∧ t < 8 ∧
          ((ps.getD (s + t * 2) dPulse).value ≠ 0 ∨
           (ps.getD (s + t * 2 + 1) dPulse).value = 0 ∨
           (ps.getD (s + t * 2 + 1) dPulse).duration > HIGH_DUR_MAX)) := by
  intro n
  induction n with
  | zero =>
    intro i b hi
    simp only [decodeByteLoop]
    constructor
    · rintro ⟨e, he⟩; cases he
    · rintro ⟨t, ht1, ht2, _⟩; omega
  | succ n ih =>
    intro i b hi
    simp only [decodeByteLoop]
    by_cases hL : (ps.getD (s + i * 2) dPulse).value ≠ 0
    · rw [if_pos hL]
      exact ⟨fun _ => ⟨i, le_refl i, by omega, .inl hL⟩, fun _ => ⟨.lowEdgeErr, rfl⟩⟩
    rw [if_neg hL]
    by_cases hH : (ps.getD (s + i * 2 + 1) dPulse).value = 0
    · rw [if_pos hH]
      exact ⟨fun _ => ⟨i, le_refl i, by omega, .inr (.inl hH)⟩, fun _ => ⟨.highEdgeErr, rfl⟩⟩
    rw [if_neg hH]
    by_cases hM : (ps.getD (s + i * 2 + 1) dPulse).duration > HIGH_DUR_MAX
    · rw [if_pos hM]
      exact ⟨fun _ => ⟨i, le_refl i, by omega, .inr (.inr hM)⟩, fun _ => ⟨.durMaxErr, rfl⟩⟩
    rw [if_neg hM]
    rw [ih (i + 1) _ (by omega)]
    constructor
    · rintro ⟨t, ht1, ht2, hcond⟩; exact ⟨t, by omega, ht2, hcond⟩
    · rintro ⟨t, ht1, ht2, hcond⟩
      rcases eq_or_lt_of_le ht1 with rfl | hlt
      · rcases hcond with hc | hc | hc
        · exact absurd hc hL
        · exact absurd hc hH
        · exact absurd hc hM
      · exact ⟨t, by omega, ht2, hcond⟩

/-- `decodeByte` ignores a leading segment when the start index is shifted
past it. -/
theorem decodeByte_shift (xs rest : List Pulse) (s : Nat) :
    decodeByte (xs ++ rest) (xs.length + s) = decodeByte rest s := by
  have hlen : (xs ++ rest).length - (xs.length + s) = rest.length - s := by
    rw [List.length_append]; omega
  have hw : ∀ t, t < 16 →
      (xs ++ rest).getD (xs.length + s + t) dPulse = rest.getD (s + t) dPulse := by
    intro t _
    rw [Nat.add_assoc, List.getD_append_right xs rest dPulse _ (by omega),
      Nat.add_sub_cancel_left]
  simp only [decodeByte, hlen]
  by_cases hc : rest.length - s < 16
  · rw [if_pos hc, if_pos hc]
  · rw [if_neg hc, if_neg hc]
    exact decodeByteLoop_congr _ _ _ _ hw 8 0 0 (by omega)

/-- `decodeByte` at index 0 ignores anything appended after the first 16
pulses. -/
theorem decodeByte_head (head rest : List Pulse) (h16 : 16 ≤ head.length) :
    decodeByte (head ++ rest) 0 = decodeByte head 0 := by
  have hw : ∀ t, t < 16 → (head ++ rest).getD (0 + t) dPulse = head.getD (0 + t) dPulse := by
    intro t ht
    exact List.getD_append head rest dPulse (0 + t) (by omega)
  simp only [decodeByte, List.length_append]
  rw [if_neg (by omega), if_neg (by omega)]
  exact decodeByteLoop_congr _ _ _ _ hw 8 0 0 (by omega)

set_option maxRecDepth 10000 in
/-- Round trip: the encoded pulses of any byte decode back to it. -/
theorem decodeByte_encodeByte : ∀ b, b < 256 → decodeByte (encodeByte b) 0 = .ok b := by
  decide

/-!  ### Properties of frames and `decodeDHT11Pulses`  -/

theorem framePayload_length (b0 b1 b2 b3 c : Nat) :
    (framePayload b0 b1 b2 b3 c).length = 80 := by
  simp [framePayload, encodeByte_length]

theorem encodeFrame_length (b0 b1 b2 b3 c : Nat) :
    (encodeFrame b0 b1 b2 b3 c).length = 82 := by
  simp [encodeFrame, framePayload_length, framePad]

theorem encodeFrame_take (b0 b1 b2 b3 c : Nat) :
    (encodeFrame b0 b1 b2 b3 c).take 80 = framePayload b0 b1 b2 b3 c := by
  rw [encodeFrame]
  exact List.take_left' (framePayload_length b0 b1 b2 b3 c)

/-- The five bytes of a constructed frame payload decode back to the bytes
that were encoded, at the pulse offsets 0, 16, 32, 48, 64. -/
theorem framePayload_decode (b0 b1 b2 b3 c : Nat) (h0 : b0 < 256) (h1 : b1 < 256)
    (h2 : b2 < 256) (h3 : b3 < 256) (hc : c < 256) :
    decodeByte (framePayload b0 b1 b2 b3 c) 0 = .ok b0 ∧
    decodeByte (framePayload b0 b1 b2 b3 c) 16 = .ok b1 ∧
    decodeByte (framePayload b0 b1 b2 b3 c) 32 = .ok b2 ∧
    decodeByte (framePayload b0 b1 b2 b3 c) 48 = .ok b3 ∧
    decodeByte (framePayload b0 b1 b2 b3 c) 64 = .ok c := by
  refine ⟨?_, ?_, ?_, ?_, ?_⟩
  · have ha : framePayload b0 b1 b2 b3 c =
        encodeByte b0 ++ (encodeByte b1 ++ (encodeByte b2 ++ (encodeByte b3 ++ encodeByte c))) := by
      simp [framePayload, List.append_assoc]
    rw [ha, decodeByte_head _ _ (by rw [encodeByte_length]), decodeByte_encodeByte b0 h0]
  · have ha : framePayload b0 b1 b2 b3 c =
        encodeByte b0 ++ (encodeByte b1 ++ (encodeByte b2 ++ (encodeByte b3 ++ encodeByte c))) := by
      simp [framePayload, List.append_assoc]
    rw [ha, (by rw [encodeByte_length] : (16 : Nat) = (encodeByte b0).length + 0),
      decodeByte_shift, decodeByte_head _ _ (by rw [encodeByte_length]),
      decodeByte_encodeByte b1 h1]
  · have ha : framePayload b0 b1 b2 b3 c =
        (encodeByte b0 ++ encodeByte b1) ++ (encodeByte b2 ++ (encodeByte b3 ++ encodeByte c)) := by
      simp [framePayload, List.append_assoc]
    rw [ha, (by simp [encodeByte_length] :
        (32 : Nat) = (encodeByte b0 ++ encodeByte b1).length + 0),
      decodeByte_shift, decodeByte_head _ _ (by rw [encodeByte_length]),
      decodeByte_encodeByte b2 h2]
  · have ha : framePayload b0 b1 b2 b3 c =
        (encodeByte b0 ++ encodeByte b1 ++ encodeByte b2) ++ (encodeByte b3 ++ encodeByte c) := by
      simp [framePayload, List.append_assoc]
    rw [ha, (by simp [encodeByte_length] :
        (48 : Nat) = (encodeByte b0 ++ encodeByte b1 ++ encodeByte b2).length + 0),
      decodeByte_shift, decodeByte_head _ _ (by rw [encodeByte_length]),
      decodeByte_encodeByte b3 h3]
  · have ha : framePayload b0 b1 b2 b3 c =
        (encodeByte b0 ++ encodeByte b1 ++ encodeByte b2 ++ encodeByte b3) ++ encodeByte c := by
      simp [framePayload, List.append_assoc]
    rw [ha, (by simp [encodeByte_length] :
        (64 : Nat) = (encodeByte b0 ++ encodeByte b1 ++ encodeByte b2 ++ encodeByte b3).length + 0),
      decodeByte_shift, decodeByte_encodeByte c hc]

/-- Evaluation of the post-trim frame decode given the five byte values. -/
theorem decodeFrame80_eq (st : SensorType) (ps : List Pulse) (b0 b1 b2 b3 c : Nat)
    (h0 : decodeByte ps 0 = .ok b0) (h1 : decodeByte ps 16 = .ok b1)
    (h2 : decodeByte ps 32 = .ok b2) (h3 : decodeByte ps 48 = .ok b3)
    (h4 : decodeByte ps 64 = .ok c) :
    decodeFrame80 st ps =
      if c ≠ (b0 + b1 + b2 + b3) % 256 then .error .checksumErr
      else if (convertReading st b0 b1 b2 b3).2 > 100 then .error .humidityErr
      else .ok (convertReading st b0 b1 b2 b3) := by
  simp only [decodeFrame80, h0, h1, h2, h3, h4]

/-- Lengths 82–85 reduce to the post-trim decode of the trimmed 80 pulses. -/
theorem decodeDHT11Pulses_trim (st : SensorType) (ps : List Pulse)
    (hlo : 82 ≤ ps.length) (hhi : ps.length ≤ 85) :
    decodeDHT11Pulses st ps = decodeFrame80 st ((ps.drop (ps.length - 82)).take 80) := by
  rcases (by omega : ps.length = 82 ∨ ps.length = 83 ∨ ps.length = 84 ∨ ps.length = 85)
    with h | h | h | h <;>
    simp [decodeDHT11Pulses, h]

/-- Any length outside 82–85 is a frame-length error. -/
theorem decodeDHT11Pulses_badLength (st : SensorType) (ps : List Pulse)
    (h : ps.length < 82 ∨ 85 < ps.length) :
    decodeDHT11Pulses st ps = .error .frameLengthErr := by
  have h85 : ps.length ≠ 85 := by omega
  have h84 : ps.length ≠ 84 := by omega
  have h83 : ps.length ≠ 83 := by omega
  have h82 : ps.length ≠ 82 := by omega
  simp [decodeDHT11Pulses, h85, h84, h83, h82]

/-- The humidity produced by the conversion step is never negative. -/
theorem convertReading_hum_nonneg (st : SensorType) (b0 b1 b2 b3 : Nat) :
    0 ≤ (convertReading st b0 b1 b2 b3).2 := by
  simp only [convertReading]
  split_ifs <;> simp <;> positivity

/-- A successful post-trim decode satisfies the humidity bounds. -/
theorem decodeFrame80_ok_hum (st : SensorType) (ps : List Pulse) (t h : Rat)
    (hok : decodeFrame80 st ps = .ok (t, h)) : 0 ≤ h ∧ h ≤ 100 := by
  simp only [decodeFrame80] at hok
  split at hok
  · exact Except.noConfusion hok
  split at hok
  · exact Except.noConfusion hok
  split at hok
  · exact Except.noConfusion hok
  split at hok
  · exact Except.noConfusion hok
  split at hok
  · exact Except.noConfusion hok
  split at hok
  · exact Except.noConfusion hok
  split at hok
  · exact Except.noConfusion hok
  · rename_i h100
    have hh := congrArg Prod.snd (Except.ok.inj hok)
    simp at hh
    constructor
    · rw [← hh]
      exact convertReading_hum_nonneg _ _ _ _ _
    · rw [← hh]
      exact le_of_not_lt h100

/-!  ### Properties of `ReadDHTxxWithRetry`  -/

/-- The retry loop queries the attempt oracle only at indices
`idx, …, idx + r`. -/
theorem retryAux_congr {e v : Type} (a a2 : Nat → Except e v) :
    ∀ r idx retried, (∀ j, j ≤ r → a (idx + j) = a2 (idx + j)) →
      ReadDHTxxWithRetryAux a idx r retried = ReadDHTxxWithRetryAux a2 idx r retried := by
  intro r
  induction r with
  | zero =>
    intro idx retried hj
    have h0 := hj 0 (le_refl 0)
    rw [Nat.add_zero] at h0
    simp only [ReadDHTxxWithRetryAux, h0]
  | succ r ih =>
    intro idx retried hj
    have h0 := hj 0 (by omega)
    rw [Nat.add_zero] at h0
    simp only [ReadDHTxxWithRetryAux, h0]
    cases ha : a2 idx with
    | ok val => rfl
    | error er =>
      exact ih (idx + 1) (retried + 1) fun j hjr => by
        have h := hj (j + 1) (by omega)
        rwa [show idx + (j + 1) = idx + 1 + j by omega] at h

/-- If the first `k` attempts fail and attempt `k` (0-based) succeeds with
`k` within the retry budget, the loop returns that success after exactly
`k` extra retries. -/
theorem retryAux_success {e v : Type} (a : Nat → Except e v) :
    ∀ k r idx retried val, k ≤ r →
      (∀ j, j < k → ∃ er, a (idx + j) = .error er) →
      a (idx + k) = .ok val →
      ReadDHTxxWithRetryAux a idx r retried = (.ok val, retried + k) := by
  intro k
  induction k with
  | zero =>
    intro r idx retried val _ _ hk
    rw [Nat.add_zero] at hk
    cases r <;> simp only [ReadDHTxxWithRetryAux, hk, Nat.add_zero]
  | succ k ih =>
    intro r idx retried val hkr hf hk
    obtain ⟨er, her⟩ := hf 0 (by omega)
    rw [Nat.add_zero] at her
    cases r with
    | zero => omega
    | succ r =>
      simp only [ReadDHTxxWithRetryAux, her]
      have hres := ih r (idx + 1) (retried + 1) val (by omega)
        (fun j hj => by
          obtain ⟨er2, he2⟩ := hf (j + 1) (by omega)
          exact ⟨er2, by rwa [show idx + (j + 1) = idx + 1 + j by omega] at he2⟩)
        (by rwa [show idx + (k + 1) = idx + 1 + k by omega] at hk)
      rw [hres, show retried + 1 + k = retried + (k + 1) by omega]

/-- If all `r + 1` attempts fail, the loop returns the LAST attempt's error
with the retry budget fully consumed. -/
theorem retryAux_exhaust {e v : Type} (a : Nat → Except e v) :
    ∀ r idx retried er, (∀ j, j < r → ∃ er2, a (idx + j) = .error er2) →
      a (idx + r) = .error er →
      ReadDHTxxWithRetryAux a idx r retried = (.error er, retried + r) := by
  intro r
  induction r with
  | zero =>
    intro idx retried er _ hr
    rw [Nat.add_zero] at hr
    simp only [ReadDHTxxWithRetryAux, hr, Nat.add_zero]
  | succ r ih =>
    intro idx retried er hf hr
    obtain ⟨er0, her0⟩ := hf 0 (by omega)
    rw [Nat.add_zero] at her0
    simp only [ReadDHTxxWithRetryAux, her0]
    have hres := ih (idx + 1) (retried + 1) er
      (fun j hj => by
        obtain ⟨er2, he2⟩ := hf (j + 1) (by omega)
        exact ⟨er2, by rwa [show idx + (j + 1) = idx + 1 + j by omega] at he2⟩)
      (by rwa [show idx + (r + 1) = idx + 1 + r by omega] at hr)
    rw [hres, show retried + 1 + r = retried + (r + 1) by omega]

/-- A constructed 82-pulse frame decodes through the post-trim path on its
80 payload pulses. -/
theorem decodeDHT11Pulses_encodeFrame (st : SensorType) (b0 b1 b2 b3 c : Nat) :
    decodeDHT11Pulses st (encodeFrame b0 b1 b2 b3 c) =
      decodeFrame80 st (framePayload b0 b1 b2 b3 c) := by
  rw [decodeDHT11Pulses_trim st _ (by rw [encodeFrame_length])
    (by rw [encodeFrame_length]; omega)]
  rw [encodeFrame_length]
  simp [encodeFrame_take]

/-!  ### Claim theorems  -/

/-- C4: whenever `decodeByte` succeeds, bit `7 - i` (MSB first, `i < 8`) of
the returned byte is set exactly when the high pulse at index
`start + 2i + 1` lasts strictly longer than the 47 µs average threshold
(`HIGH_DUR_AVG = 47000` ns); consequently a high pulse of exactly 47 µs
decodes as bit 0 and one of 48 µs as bit 1. -/
theorem c4_bit_threshold :
    HIGH_DUR_AVG = 47 * 1000 ∧
    ∀ (ps : List Pulse) (start b : Nat), decodeByte ps start = .ok b →
      ∀ i, i < 8 →
        (b.testBit (7 - i) = true ↔
          HIGH_DUR_AVG < (ps.getD (start + i * 2 + 1) dPulse).duration) := by
  refine ⟨by decide, ?_⟩
  intro ps start b hok i hi
  rw [decodeByte] at hok
  by_cases hg : ps.length - start < 16
  · rw [if_pos hg] at hok; exact Except.noConfusion hok
  rw [if_neg hg] at hok
  have hb0 : ∀ t, 0 ≤ t → t < 8 → Nat.testBit 0 (7 - t) = false := by
    intro t _ _; exact Nat.zero_testBit _
  exact (decodeByteLoop_ok_bits ps start 8 0 0 b rfl hok).2 hb0 i (Nat.zero_le i) hi

/-- Witness for C4 on `boundaryPulses`: its first bit pair has a 48 µs high
pulse and decodes as bit 1, its second has exactly 47 µs and decodes as
bit 0 (the decoded byte is 128). -/
theorem c4_bit_threshold_witness :
    (Nat.testBit 128 (7 - 0) = true ↔
      HIGH_DUR_AVG < (boundaryPulses.getD (0 + 0 * 2 + 1) dPulse).duration) ∧
    (Nat.testBit 128 (7 - 1) = true ↔
      HIGH_DUR_AVG < (boundaryPulses.getD (0 + 1 * 2 + 1) dPulse).duration) :=
  ⟨c4_bit_threshold.2 boundaryPulses 0 128 (by decide) 0 (by decide),
   c4_bit_threshold.2 boundaryPulses 0 128 (by decide) 1 (by decide)⟩

/-- C6: `decodeByte` fails exactly when fewer than 16 pulses remain from the
start index, or some bit pair has a nonzero level on its even pulse or a
zero level on its odd pulse, or some high pulse exceeds the 97 µs absolute
maximum (`HIGH_DUR_MAX = (70+(70+54))/2` µs); the short-input test comes
first and produces the range error. -/
theorem c6_decodeByte_failure :
    HIGH_DUR_MAX = 97 * 1000 ∧
    ∀ (ps : List Pulse) (start : Nat),
      ((∃ e, decodeByte ps start = .error e) ↔
        (ps.length - start < 16 ∨
          ∃ i, i < 8 ∧
            ((ps.getD (start + i * 2) dPulse).value ≠ 0 ∨
             (ps.getD (start + i * 2 + 1) dPulse).value = 0 ∨
             HIGH_DUR_MAX < (ps.getD (start + i * 2 + 1) dPulse).duration))) ∧
      (ps.length - start < 16 → decodeByte ps start = .error .rangeErr) := by
  refine ⟨by decide, ?_⟩
  intro ps start
  constructor
  · rw [decodeByte]
    by_cases hg : ps.length - start < 16
    · rw [if_pos hg]
      exact ⟨fun _ => .inl hg, fun _ => ⟨.rangeErr, rfl⟩⟩
    · rw [if_neg hg]
      rw [decodeByteLoop_error_iff ps start 8 0 0 rfl]
      constructor
      · rintro ⟨t, _, ht2, hcond⟩
        exact .inr ⟨t, ht2, hcond⟩
      · rintro (hlt | ⟨t, ht2, hcond⟩)
        · exact absurd hlt hg
        · exact ⟨t, Nat.zero_le t, ht2, hcond⟩
  · intro hg
    rw [decodeByte, if_pos hg]

/-- Witness for C6: the empty pulse list has fewer than 16 pulses remaining,
so `decodeByte` fails with the range error. -/
theorem c6_decodeByte_failure_witness :
    decodeByte [] 0 = .error .rangeErr :=
  ((c6_decodeByte_failure.2 [] 0).2 (by decide))

/-- C1: an encoded frame carrying bytes `b0..b3` and fifth byte `c`
reproduces `b0..b3` (and `c`) through the byte decoder at offsets
0/16/32/48/64, and the frame decoder reports the checksum error exactly
when `c` differs from `(b0+b1+b2+b3) mod 256` (8-bit wraparound sum). -/
theorem c1_checksum_roundtrip (st : SensorType) (b0 b1 b2 b3 c : Nat)
    (h0 : b0 < 256) (h1 : b1 < 256) (h2 : b2 < 256) (h3 : b3 < 256) (hc : c < 256) :
    (decodeByte ((encodeFrame b0 b1 b2 b3 c).take 80) 0 = .ok b0 ∧
     decodeByte ((encodeFrame b0 b1 b2 b3 c).take 80) 16 = .ok b1 ∧
     decodeByte ((encodeFrame b0 b1 b2 b3 c).take 80) 32 = .ok b2 ∧
     decodeByte ((encodeFrame b0 b1 b2 b3 c).take 80) 48 = .ok b3 ∧
     decodeByte ((encodeFrame b0 b1 b2 b3 c).take 80) 64 = .ok c) ∧
    (decodeDHT11Pulses st (encodeFrame b0 b1 b2 b3 c) = .error .checksumErr ↔
      c ≠ (b0 + b1 + b2 + b3) % 256) := by
  obtain ⟨d0, d1, d2, d3, d4⟩ := framePayload_decode b0 b1 b2 b3 c h0 h1 h2 h3 hc
  rw [encodeFrame_take]
  refine ⟨⟨d0, d1, d2, d3, d4⟩, ?_⟩
  rw [decodeDHT11Pulses_encodeFrame st b0 b1 b2 b3 c,
    decodeFrame80_eq st _ b0 b1 b2 b3 c d0 d1 d2 d3 d4]
  by_cases hcs : c ≠ (b0 + b1 + b2 + b3) % 256
  · rw [if_pos hcs]
    exact iff_of_true rfl hcs
  · rw [if_neg hcs]
    refine iff_of_false ?_ hcs
    by_cases h100 : (convertReading st b0 b1 b2 b3).2 > 100
    · rw [if_pos h100]
      intro hcon
      exact DhtError.noConfusion (Except.error.inj hcon)
    · rw [if_neg h100]
      intro hcon
      exact Except.noConfusion hcon

/-- Witness for C1 at the spec's variant-A example bytes (45, 0, 23, 0)
with correct checksum 68. -/
theorem c1_checksum_roundtrip_witness :
    (decodeByte ((encodeFrame 45 0 23 0 68).take 80) 0 = .ok 45 ∧
     decodeByte ((encodeFrame 45 0 23 0 68).take 80) 16 = .ok 0 ∧
     decodeByte ((encodeFrame 45 0 23 0 68).take 80) 32 = .ok 23 ∧
     decodeByte ((encodeFrame 45 0 23 0 68).take 80) 48 = .ok 0 ∧
     decodeByte ((encodeFrame 45 0 23 0 68).take 80) 64 = .ok 68) ∧
    (decodeDHT11Pulses DHT11 (encodeFrame 45 0 23 0 68) = .error .checksumErr ↔
      (68 : Nat) ≠ (45 + 0 + 23 + 0) % 256) :=
  c1_checksum_roundtrip DHT11 45 0 23 0 68 (by decide) (by decide) (by decide)
    (by decide) (by decide)

/-- C3: frame decoding of any pulse sequence of total length 82–85 depends
only on the first 80 pulses that remain after trimming the
`length − 82` leading pulses, and any other total length fails with the
frame-length error. -/
theorem c3_preamble_trim (st : SensorType) :
    (∀ ps qs : List Pulse, 82 ≤ ps.length → ps.length ≤ 85 →
      82 ≤ qs.length → qs.length ≤ 85 →
      (ps.drop (ps.length - 82)).take 80 = (qs.drop (qs.length - 82)).take 80 →
      decodeDHT11Pulses st ps = decodeDHT11Pulses st qs) ∧
    (∀ ps : List Pulse, ps.length < 82 ∨ 85 < ps.length →
      decodeDHT11Pulses st ps = .error .frameLengthErr) := by
  constructor
  · intro ps qs hp1 hp2 hq1 hq2 heq
    rw [decodeDHT11Pulses_trim st ps hp1 hp2, decodeDHT11Pulses_trim st qs hq1 hq2, heq]
  · intro ps h
    exact decodeDHT11Pulses_badLength st ps h

/-- Witness for C3: a length-85 frame with three junk preamble pulses
decodes identically to the bare length-82 frame, and a length-81 sequence
is a frame-length error. -/
theorem c3_preamble_trim_witness :
    decodeDHT11Pulses DHT11 (junk3 ++ encodeFrame 45 0 23 0 68) =
      decodeDHT11Pulses DHT11 (encodeFrame 45 0 23 0 68) ∧
    decodeDHT11Pulses DHT11 ((encodeFrame 45 0 23 0 68).drop 1) =
      .error .frameLengthErr :=
  ⟨(c3_preamble_trim DHT11).1 _ _ (by decide) (by decide) (by decide) (by decide)
      (by decide),
   (c3_preamble_trim DHT11).2 _ (by decide)⟩

/-- C7: for the higher-resolution variant (`DHT22`, aliased by `AM2302`),
any successful decode of a length-82 frame with decoded bytes `b0..b3`
yields humidity `(b0*256+b1)/10` and temperature `((b2 and 0x7F)*256+b3)/10`
negated when bit `0x80` of `b2` is set; in particular the bytes
`(0x01, 0x2C, 0x80, 0xF6)` (checksum `0xA3`) yield humidity 30 and
temperature −24.6 °C. -/
theorem c7_dht22_conversion :
    (∀ (ps : List Pulse) (b0 b1 b2 b3 c : Nat) (t h : Rat),
      ps.length = 82 →
      decodeByte (ps.take 80) 0 = .ok b0 →
      decodeByte (ps.take 80) 16 = .ok b1 →
      decodeByte (ps.take 80) 32 = .ok b2 →
      decodeByte (ps.take 80) 48 = .ok b3 →
      decodeByte (ps.take 80) 64 = .ok c →
      decodeDHT11Pulses DHT22 ps = .ok (t, h) →
      h = ((b0 : Rat) * 256 + (b1 : Rat)) / 10 ∧
      t = (if b2 &&& 128 ≠ 0
            then -((((b2 &&& 127 : Nat) : Rat) * 256 + (b3 : Rat)) / 10)
            else (((b2 &&& 127 : Nat) : Rat) * 256 + (b3 : Rat)) / 10)) ∧
    decodeDHT11Pulses AM2302 (encodeFrame 1 44 128 246 163) =
      .ok (-(246 : Rat) / 10, 30) := by
  constructor
  · intro ps b0 b1 b2 b3 c t h hlen d0 d1 d2 d3 d4 hok
    rw [decodeDHT11Pulses_trim DHT22 ps (by omega) (by omega), hlen] at hok
    simp only [Nat.sub_self, List.drop_zero] at hok
    rw [decodeFrame80_eq DHT22 _ b0 b1 b2 b3 c d0 d1 d2 d3 d4] at hok
    by_cases hcs : c ≠ (b0 + b1 + b2 + b3) % 256
    · rw [if_pos hcs] at hok
      exact Except.noConfusion hok
    rw [if_neg hcs] at hok
    by_cases h100 : (convertReading DHT22 b0 b1 b2 b3).2 > 100
    · rw [if_pos h100] at hok
      exact Except.noConfusion hok
    rw [if_neg h100] at hok
    have hinj := (Except.ok.inj hok).symm
    have hconv : convertReading DHT22 b0 b1 b2 b3 =
        (if b2 &&& 128 ≠ 0
          then -((((b2 &&& 127 : Nat) : Rat) * 256 + (b3 : Rat)) / 10)
          else (((b2 &&& 127 : Nat) : Rat) * 256 + (b3 : Rat)) / 10,
         ((b0 : Rat) * 256 + (b1 : Rat)) / 10) := by
      norm_num [convertReading, DHT22, DHT11]
    rw [hconv, Prod.mk.injEq] at hinj
    exact ⟨hinj.2, hinj.1⟩
  · obtain ⟨d0, d1, d2, d3, d4⟩ := framePayload_decode 1 44 128 246 163 (by decide)
      (by decide) (by decide) (by decide) (by decide)
    have hx1 : (128 &&& 127 : Nat) = 0 := by decide
    have hx2 : (128 &&& 128 : Nat) = 128 := by decide
    have hconv : convertReading AM2302 1 44 128 246 = (-(246 : Rat) / 10, 30) := by
      norm_num [convertReading, DHT22, DHT11, AM2302, hx1, hx2]
    rw [decodeDHT11Pulses_encodeFrame AM2302 1 44 128 246 163,
      decodeFrame80_eq AM2302 _ 1 44 128 246 163 d0 d1 d2 d3 d4, hconv]
    norm_num

/-- Witness for C7: instantiating the conversion law at the concrete frame
`(0x01, 0x2C, 0x80, 0xF6)` (checksum `0xA3`), whose decode is humidity 30
and temperature −24.6 °C. -/
theorem c7_dht22_conversion_witness :
    (30 : Rat) = ((1 : Rat) * 256 + (44 : Rat)) / 10 ∧
    -(246 : Rat) / 10 = (if (128 &&& 128 : Nat) ≠ 0
      then -(((((128 &&& 127 : Nat)) : Rat) * 256 + (246 : Rat)) / 10)
      else ((((128 &&& 127 : Nat)) : Rat) * 256 + (246 : Rat)) / 10) :=
  c7_dht22_conversion.1 (encodeFrame 1 44 128 246 163) 1 44 128 246 163
    (-(246 : Rat) / 10) 30 (by decide) (by decide) (by decide) (by decide)
    (by decide) (by decide) c7_dht22_conversion.2

/-- C8: every reading returned successfully by the frame decoder has
humidity between 0 and 100, and any frame whose converted humidity exceeds
100 fails with the humidity range error even though its checksum is
valid — the value is rejected, never clamped. -/
theorem c8_humidity_range :
    (∀ (st : SensorType) (ps : List Pulse) (t h : Rat),
       decodeDHT11Pulses st ps = .ok (t, h) → 0 ≤ h ∧ h ≤ 100) ∧
    (∀ (st : SensorType) (ps : List Pulse) (b0 b1 b2 b3 : Nat),
       ps.length = 82 →
       decodeByte (ps.take 80) 0 = .ok b0 →
       decodeByte (ps.take 80) 16 = .ok b1 →
       decodeByte (ps.take 80) 32 = .ok b2 →
       decodeByte (ps.take 80) 48 = .ok b3 →
       decodeByte (ps.take 80) 64 = .ok ((b0 + b1 + b2 + b3) % 256) →
       100 < (convertReading st b0 b1 b2 b3).2 →
       decodeDHT11Pulses st ps = .error .humidityErr) := by
  constructor
  · intro st ps t h hok
    by_cases hin : 82 ≤ ps.length ∧ ps.length ≤ 85
    · rw [decodeDHT11Pulses_trim st ps hin.1 hin.2] at hok
      exact decodeFrame80_ok_hum st _ t h hok
    · rw [decodeDHT11Pulses_badLength st ps (by omega)] at hok
      exact Except.noConfusion hok
  · intro st ps b0 b1 b2 b3 hlen d0 d1 d2 d3 d4 h100
    rw [decodeDHT11Pulses_trim st ps (by omega) (by omega), hlen]
    simp only [Nat.sub_self, List.drop_zero]
    rw [decodeFrame80_eq st _ b0 b1 b2 b3 _ d0 d1 d2 d3 d4]
    rw [if_neg (by simp), if_pos h100]

/-- Witness for C8: a DHT11 frame with byte0 = 101 and valid checksum is
rejected with the humidity range error. -/
theorem c8_humidity_range_witness :
    decodeDHT11Pulses DHT11 (encodeFrame 101 0 0 0 101) = .error .humidityErr :=
  c8_humidity_range.2 DHT11 (encodeFrame 101 0 0 0 101) 101 0 0 0 (by decide)
    (by decide) (by decide) (by decide) (by decide) (by decide)
    (by norm_num [convertReading, DHT11])

/-- C10: a sensor-type value other than `DHT11` and `DHT22` (= `AM2302`)
skips both conversion branches, so a frame with valid length and checksum
decodes without error to temperature 0 and humidity 0. -/
theorem c10_unknown_sensor (st : SensorType) (ps : List Pulse) (b0 b1 b2 b3 : Nat)
    (hs1 : st ≠ DHT11) (hs2 : st ≠ DHT22) (hlen : ps.length = 82)
    (d0 : decodeByte (ps.take 80) 0 = .ok b0)
    (d1 : decodeByte (ps.take 80) 16 = .ok b1)
    (d2 : decodeByte (ps.take 80) 32 = .ok b2)
    (d3 : decodeByte (ps.take 80) 48 = .ok b3)
    (d4 : decodeByte (ps.take 80) 64 = .ok ((b0 + b1 + b2 + b3) % 256)) :
    decodeDHT11Pulses st ps = .ok (0, 0) := by
  rw [decodeDHT11Pulses_trim st ps (by omega) (by omega), hlen]
  simp only [Nat.sub_self, List.drop_zero]
  rw [decodeFrame80_eq st _ b0 b1 b2 b3 _ d0 d1 d2 d3 d4]
  rw [if_neg (by simp)]
  have hconv : convertReading st b0 b1 b2 b3 = (0, 0) := by
    rw [convertReading, if_neg hs1, if_neg hs2]
  rw [hconv]
  norm_num

/-- Witness for C10 at sensor-type value 3 with a valid frame. -/
theorem c10_unknown_sensor_witness :
    decodeDHT11Pulses 3 (encodeFrame 1 2 3 4 10) = .ok (0, 0) :=
  c10_unknown_sensor 3 (encodeFrame 1 2 3 4 10) 1 2 3 4 (by decide) (by decide)
    (by decide) (by decide) (by decide) (by decide) (by decide) (by decide)

/-- C2: the retry wrapper consults the attempt oracle only at the first
`n + 1` indices (so it makes at most `n + 1` attempts); if attempt `k`
(0-based, `k ≤ n`) is the first success it returns that reading with
`retried = k`; and if all `n + 1` attempts fail it returns the last
attempt's error with `retried = n`. -/
theorem c2_retry_accounting {e v : Type} (attempt attempt2 : Nat → Except e v) (n : Nat) :
    ((∀ j, j ≤ n → attempt j = attempt2 j) →
      ReadDHTxxWithRetry attempt n = ReadDHTxxWithRetry attempt2 n) ∧
    (∀ k val, k ≤ n → (∀ j, j < k → ∃ er, attempt j = .error er) →
      attempt k = .ok val → ReadDHTxxWithRetry attempt n = (.ok val, k)) ∧
    (∀ er, (∀ j, j < n → ∃ er2, attempt j = .error er2) → attempt n = .error er →
      ReadDHTxxWithRetry attempt n = (.error er, n)) := by
  refine ⟨?_, ?_, ?_⟩
  · intro hj
    unfold ReadDHTxxWithRetry
    exact retryAux_congr attempt attempt2 n 0 0 fun j hjn => by
      rw [Nat.zero_add]
      exact hj j hjn
  · intro k val hk hf hok
    unfold ReadDHTxxWithRetry
    rw [retryAux_success attempt k n 0 0 val hk
      (fun j hjk => by rw [Nat.zero_add]; exact hf j hjk)
      (by rw [Nat.zero_add]; exact hok)]
    rw [Nat.zero_add]
  · intro er hf hok
    unfold ReadDHTxxWithRetry
    rw [retryAux_exhaust attempt n 0 0 er
      (fun j hj => by rw [Nat.zero_add]; exact hf j hj)
      (by rw [Nat.zero_add]; exact hok)]
    rw [Nat.zero_add]

/-- Witness for C2 with the fail-twice-then-succeed oracle: `max_retries = 2`
returns the success with 2 retries used, `max_retries = 1` returns the
second failure with 1 retry used (no third attempt). -/
theorem c2_retry_accounting_witness :
    ReadDHTxxWithRetry c2Attempt 2 = (.ok 42, 2) ∧
    ReadDHTxxWithRetry c2Attempt 1 = (.error 1, 1) := by
  constructor
  · exact (c2_retry_accounting c2Attempt c2Attempt 2).2.1 2 42 (by omega)
      (fun j hj => ⟨j, by simp [c2Attempt, hj]⟩) (by simp [c2Attempt])
  · exact (c2_retry_accounting c2Attempt c2Attempt 1).2.2 1
      (fun j hj => ⟨j, by
        have h2 : j < 2 := by omega
        simp [c2Attempt, h2]⟩)
      (by simp [c2Attempt])

/-- C5: evaluation of `sift` on `c5Input`, where the level transitions at
sample 30 and afterwards the true elapsed time since that transition far
exceeds the 10 ms idle timeout.  The source's timeout probe reads
`input[i].Time` with `i` the same-level run counter instead of the scan
index `j`, so it compares a pre-transition timestamp against the transition
time, never sees the timeout expire, and runs off the end of the input
(index out of range) instead of closing the final pulse with duration
`timeoutMsec * 1000` and stopping successfully. -/
theorem c5_sift_timeout_probe : sift c5Input 10 = .panic := by decide

/-- C9: `sift` indexes its input without bounds checks and is not total:
the empty input panics on the initial read, and inputs exhausted before a
transition or a (correctly detected) idle timeout — including because the
timeout probe reads index `i`, the per-run counter, rather than the scan
index `j` — run past the end of the input instead of returning an error. -/
theorem c9_sift_not_total :
    (∀ timeoutMsec : Int, sift [] timeoutMsec = .panic) ∧
    sift c9Const 10 = .panic ∧
    sift c9Trans 10 = .panic := by
  refine ⟨fun _ => rfl, by decide, by decide⟩
